import Mathlib

/-!
Shallow embedding of the `async_timers` hierarchical timing wheel
(`src/lib.rs`, `src/slab.rs`).

Modelling conventions:
* A `Waker` is represented by a `Nat` identity; `Waker::will_wake` is the
  cheap identity comparison, `Waker::clone` is the identity function.
* Notifying a waker (`wake_by_ref`) is recorded in an event log of
  `(TimerId, waker)` pairs instead of performing a side effect.
* The `slab::Slab` slot allocator is a list of optional slots plus a
  LIFO free list: `insert` pops the free-list head (or appends at the
  end), `remove` vacates the slot and pushes its key onto the free list,
  `get_mut` is positional lookup.
* Rust panics (`unwrap` on a vacated slot, the `unreachable!()` arm of
  `TimerStorage::wake`) are modelled by returning `none`; fallible
  operations therefore live in `Option`.
* Machine integers: durations are `Nat` milliseconds; the
  `duration.as_millis() as u64` cast truncates modulo `2 ^ 64`.
  Occupancy bitsets (`Bitset<u16>`, `Bitset<u64>`, `Bitset<u32>`) are
  `Nat`s manipulated with `lor` / `land` / a width-bounded complement,
  exactly as the Rust bit operations do.
* `Instant` is opaque; `last_tick` is an abstract timestamp that the
  operations modelled here never change.  `tick()`'s batching merely
  repeats `process_single_tick`, which we expose as `stepN`.
-/

namespace AsyncTimers

/-- Waker identity (`std::task::Waker` up to `will_wake`). -/
abbrev Waker := Nat

/-- TimerId, as in `type TimerId = usize;`. -/
abbrev TimerId := Nat

/-- `std::task::Poll<()>`. -/
inductive Poll where
  | pending
  | ready
deriving DecidableEq, Repr

/-- The tri-state slot of `slab.rs`: `enum Timer { Waiting(Waker), Done, Cancelled }`. -/
inductive Timer where
  | waiting (w : Waker)
  | done
  | cancelled
deriving DecidableEq, Repr

/-- `TimerStorage { inner: slab::Slab<Timer> }`, with the slab modelled as
positional optional slots plus a LIFO free list. -/
structure TimerStorage where
  inner : List (Option Timer)
  free : List Nat
deriving DecidableEq, Repr

namespace TimerStorage

/-- The empty slab (`TimerStorage::default()`). -/
def default : TimerStorage := ⟨[], []⟩

/-- `slab::Slab::get_mut(id)` as a read: `none` models a vacant or
out-of-range slot. -/
def get (s : TimerStorage) (id : TimerId) : Option Timer :=
  (s.inner.getD id none)

/-- Overwrite slot `id` (the write half of `get_mut`). -/
def set (s : TimerStorage) (id : TimerId) (t : Timer) : TimerStorage :=
  { s with inner := s.inner.set id (some t) }

/-- `slab::Slab::remove(id)`: vacate the slot and push the key on the free list. -/
def remove (s : TimerStorage) (id : TimerId) : TimerStorage :=
  ⟨s.inner.set id none, id :: s.free⟩

/-- `slab::Slab::insert(Timer::Waiting(waker.clone()))` inside
`TimerStorage::create`: pop the free-list head, or append a fresh slot. -/
def create (s : TimerStorage) (waker : Waker) : TimerStorage × TimerId :=
  match s.free with
  | [] => (⟨s.inner ++ [some (.waiting waker)], []⟩, s.inner.length)
  | f :: rest => (⟨s.inner.set f (some (.waiting waker)), rest⟩, f)

/-- `TimerStorage::drop`.  `none` models the panic of
`self.inner.get_mut(id).unwrap()` on a vacated slot. -/
def dropTimer (s : TimerStorage) (id : TimerId) : Option TimerStorage :=
  match s.get id with
  | none => none
  | some (.waiting _) => some (s.set id .cancelled)
  | some .done => some (s.remove id)
  | some .cancelled => some s

/-- `Waker::will_wake`: cheap identity comparison. -/
def willWake (stored given : Waker) : Bool := stored == given

/-- `TimerStorage::poll`.  `none` models the panic of the `unwrap` on a
vacated slot. -/
def poll (s : TimerStorage) (id : TimerId) (waker : Waker) :
    Option (TimerStorage × Poll) :=
  match s.get id with
  | none => none
  | some (.waiting stored) =>
      if willWake stored waker then some (s, .pending)
      else some (s.set id (.waiting waker), .pending)
  | some .done => some (s.remove id, .ready)
  | some .cancelled => some (s.remove id, .ready)

/-- `TimerStorage::wake`.  The returned list logs the `wake_by_ref`
notification as an `(id, waker)` event; `none` models both the `unwrap`
panic on a vacated slot and the `unreachable!()` arm for `Done`. -/
def wake (s : TimerStorage) (id : TimerId) :
    Option (TimerStorage × List (TimerId × Waker)) :=
  match s.get id with
  | none => none
  | some (.waiting w) => some (s.set id .done, [(id, w)])
  | some .done => none
  | some .cancelled => some (s.remove id, [])

end TimerStorage

/-! Bitsets.  The Rust `Bitset<uN>` wraps an `N`-bit integer; indices used
by the wheel are always below the level size (10, 60, 24), hence below the
width.  `clear` uses the width-bounded complement `!(1 << idx)`. -/

/-- `Bitset::set`: `self.0 |= 1 << idx`. -/
def bitsetSet (b idx : Nat) : Nat := b ||| (1 <<< idx)

/-- `Bitset::clear`: `self.0 &= !(1 << idx)`, where `!` complements within
the `width`-bit word. -/
def bitsetClear (width b idx : Nat) : Nat := b &&& ((2 ^ width - 1) ^^^ (1 <<< idx))

/-- `Bitset::is_set`: `(self.0 & (1 << idx)) != 0`. -/
def bitsetIsSet (b idx : Nat) : Bool := (b &&& (1 <<< idx)) != 0

/-- `MS_TICK`. -/
def MS_TICK : Nat := 10
/-- `MS_BUCKETS`. -/
def MS_BUCKETS : Nat := 10
/-- `S_BUCKETS`. -/
def S_BUCKETS : Nat := 60
/-- `H_BUCKETS`. -/
def H_BUCKETS : Nat := 24
/-- `MAX_DURATION_HOURS`. -/
def MAX_DURATION_HOURS : Nat := 24

/-- A bucket: `SmallVec<[TimerId; 8]>` as a list of ids. -/
abbrev Bucket := List TimerId

/-- Read a bucket from a level array. -/
def bucketGet (l : List Bucket) (idx : Nat) : Bucket := l.getD idx []

/-- `DurationTooLong`. -/
inductive DurationTooLong where
  | durationTooLong
deriving DecidableEq, Repr

/-- The `TimeWheel` state: storage, the three `BucketLevels` arrays with
their occupancy bitsets, the abstract `last_tick` timestamp, and the three
cursors. -/
structure TimeWheel where
  storage : TimerStorage
  ms_level : List Bucket
  s_level : List Bucket
  h_level : List Bucket
  ms_occupied : Nat
  s_occupied : Nat
  h_occupied : Nat
  last_tick : Nat
  current_ms_idx : Nat
  current_s_idx : Nat
  current_h_idx : Nat
deriving DecidableEq, Repr

namespace TimeWheel

/-- `TimeWheel::new()` / `BucketLevels::new()`. -/
def new : TimeWheel where
  storage := TimerStorage.default
  ms_level := List.replicate MS_BUCKETS []
  s_level := List.replicate S_BUCKETS []
  h_level := List.replicate H_BUCKETS []
  ms_occupied := 0
  s_occupied := 0
  h_occupied := 0
  last_tick := 0
  current_ms_idx := 0
  current_s_idx := 0
  current_h_idx := 0

/-- `TimeWheel::compute_ms_bucket_from_ms`. -/
def compute_ms_bucket_from_ms (w : TimeWheel) (ms : Nat) : Nat :=
  (w.current_ms_idx + min (ms / MS_TICK) (MS_BUCKETS - 1)) % MS_BUCKETS

/-- `TimeWheel::compute_s_bucket_from_ms`. -/
def compute_s_bucket_from_ms (w : TimeWheel) (ms : Nat) : Nat :=
  (w.current_s_idx + min (ms / 1000) (S_BUCKETS - 1)) % S_BUCKETS

/-- `TimeWheel::compute_h_bucket_from_ms`. -/
def compute_h_bucket_from_ms (w : TimeWheel) (ms : Nat) : Nat :=
  (w.current_h_idx + min (ms / 3600000) (H_BUCKETS - 1)) % H_BUCKETS

/-- `TimeWheel::init_timer`.  The input is the duration in (exact)
milliseconds; `duration.as_millis() as u64` truncates it modulo `2 ^ 64`.
The Rust method mutates `&mut self` and returns a `Result`, modelled as a
result-state pair (the state is unchanged on the error path). -/
def init_timer (w : TimeWheel) (durationMs : Nat) (waker : Waker) :
    Except DurationTooLong TimerId × TimeWheel :=
  let total_ms := durationMs % 2 ^ 64
  if total_ms ≥ MAX_DURATION_HOURS * 3600000 then
    (.error .durationTooLong, w)
  else
    let cs := w.storage.create waker
    let timer_id := cs.2
    let w := { w with storage := cs.1 }
    let ms_threshold := MS_BUCKETS * MS_TICK
    let s_threshold := S_BUCKETS * 1000
    if total_ms < ms_threshold then
      let idx := w.compute_ms_bucket_from_ms total_ms
      (.ok timer_id,
        { w with
          ms_occupied := bitsetSet w.ms_occupied idx
          ms_level := w.ms_level.set idx (bucketGet w.ms_level idx ++ [timer_id]) })
    else if total_ms < s_threshold then
      let idx := w.compute_s_bucket_from_ms total_ms
      (.ok timer_id,
        { w with
          s_occupied := bitsetSet w.s_occupied idx
          s_level := w.s_level.set idx (bucketGet w.s_level idx ++ [timer_id]) })
    else
      let idx := w.compute_h_bucket_from_ms total_ms
      (.ok timer_id,
        { w with
          h_occupied := bitsetSet w.h_occupied idx
          h_level := w.h_level.set idx (bucketGet w.h_level idx ++ [timer_id]) })

/-- `TimeWheel::poll` (forwarded to storage). -/
def poll (w : TimeWheel) (id : TimerId) (waker : Waker) :
    Option (TimeWheel × Poll) :=
  (w.storage.poll id waker).map fun (s, p) => ({ w with storage := s }, p)

/-- `TimeWheel::drop` (forwarded to storage). -/
def dropTimer (w : TimeWheel) (id : TimerId) : Option TimeWheel :=
  (w.storage.dropTimer id).map fun s => { w with storage := s }

/-- Invoke `storage.wake` on every id of a drained bucket, in order,
concatenating the notification events.  `none` propagates a panic. -/
def wakeAll (s : TimerStorage) : List TimerId →
    Option (TimerStorage × List (TimerId × Waker))
  | [] => some (s, [])
  | id :: rest =>
      (s.wake id).bind fun p =>
        (wakeAll p.1 rest).map fun q => (q.1, p.2 ++ q.2)

/-- `TimeWheel::cascade_from_seconds`. -/
def cascade_from_seconds (w : TimeWheel) : TimeWheel :=
  if !(bitsetIsSet w.s_occupied w.current_s_idx) then w
  else
    let bucket := bucketGet w.s_level w.current_s_idx
    { w with
      s_occupied := bitsetClear 64 w.s_occupied w.current_s_idx
      s_level := w.s_level.set w.current_s_idx []
      ms_occupied := bitsetSet w.ms_occupied w.current_ms_idx
      ms_level := w.ms_level.set w.current_ms_idx
        (bucketGet w.ms_level w.current_ms_idx ++ bucket) }

/-- `TimeWheel::cascade_from_hours`. -/
def cascade_from_hours (w : TimeWheel) : TimeWheel :=
  if !(bitsetIsSet w.h_occupied w.current_h_idx) then w
  else
    let bucket := bucketGet w.h_level w.current_h_idx
    { w with
      h_occupied := bitsetClear 32 w.h_occupied w.current_h_idx
      h_level := w.h_level.set w.current_h_idx []
      s_occupied := bitsetSet w.s_occupied w.current_s_idx
      s_level := w.s_level.set w.current_s_idx
        (bucketGet w.s_level w.current_s_idx ++ bucket) }

/-- The cursor-advancement tail of `process_single_tick` (`lib.rs` lines
141-151): advance the tick cursor, and on wrap cascade from the coarse
level and advance the coarse cursor, and on its wrap cascade from the
coarsest level and advance the coarsest cursor. -/
def advance_cursors (w : TimeWheel) : TimeWheel :=
  let w := { w with current_ms_idx := (w.current_ms_idx + 1) % MS_BUCKETS }
  if w.current_ms_idx == 0 then
    let w := w.cascade_from_seconds
    let w := { w with current_s_idx := (w.current_s_idx + 1) % S_BUCKETS }
    if w.current_s_idx == 0 then
      let w := w.cascade_from_hours
      { w with current_h_idx := (w.current_h_idx + 1) % H_BUCKETS }
    else w
  else w

/-- `TimeWheel::process_single_tick`: drain the current tick bucket if its
occupancy bit is set (clearing bit and bucket, waking each id), then
`advance_cursors`.  Returns the new state paired with the notification
events of the drained bucket; `none` propagates a panic from
`storage.wake`. -/
def process_single_tick (w : TimeWheel) :
    Option (TimeWheel × List (TimerId × Waker)) :=
  if bitsetIsSet w.ms_occupied w.current_ms_idx then
    (wakeAll w.storage (bucketGet w.ms_level w.current_ms_idx)).map fun p =>
      (advance_cursors
        { w with
          storage := p.1
          ms_occupied := bitsetClear 16 w.ms_occupied w.current_ms_idx
          ms_level := w.ms_level.set w.current_ms_idx [] }, p.2)
  else
    some (advance_cursors w, [])

/-- `n` successive single tick steps (the body of a batched `tick()` that
processes `n` ticks), accumulating the notification events. -/
def stepN : Nat → TimeWheel → Option (TimeWheel × List (TimerId × Waker))
  | 0, w => some (w, [])
  | n + 1, w =>
      w.process_single_tick.bind fun p =>
        (stepN n p.1).map fun q => (q.1, p.2 ++ q.2)

/-- Scan `i = start, start+1, ...` for `n` rounds, returning the first `i`
satisfying `test` (the early-returning `for` loops of `next_deadline`). -/
def findFirstHit (test : Nat → Bool) : Nat → Nat → Option Nat
  | _, 0 => none
  | i, n + 1 => if test i then some i else findFirstHit test (i + 1) n

/-- `TimeWheel::next_deadline`, in milliseconds. -/
def next_deadline (w : TimeWheel) : Option Nat :=
  match findFirstHit (fun i => bitsetIsSet w.ms_occupied ((w.current_ms_idx + i) % MS_BUCKETS)) 0 MS_BUCKETS with
  | some i => if i = 0 then none else some (i * MS_TICK)
  | none =>
  match findFirstHit (fun i => bitsetIsSet w.s_occupied ((w.current_s_idx + i) % S_BUCKETS)) 0 S_BUCKETS with
  | some i => some ((MS_BUCKETS - w.current_ms_idx) * MS_TICK + i * 1000)
  | none =>
  match findFirstHit (fun i => bitsetIsSet w.h_occupied ((w.current_h_idx + i) % H_BUCKETS)) 0 H_BUCKETS with
  | some i => some ((MS_BUCKETS - w.current_ms_idx) * MS_TICK + (S_BUCKETS - w.current_s_idx - 1) * 1000 + i * 3600 * 1000)
  | none => none

/-- Transcription of claim C5's description of the drain phase: if the
tick-level occupancy bit at the current tick cursor is set, clear the bit,
invoke storage wake on each contained id, and leave the bucket empty. -/
def specDrainCurrent (w : TimeWheel) : Option (TimeWheel × List (TimerId × Waker)) :=
  if bitsetIsSet w.ms_occupied w.current_ms_idx then
    match wakeAll w.storage (bucketGet w.ms_level w.current_ms_idx) with
    | none => none
    | some (st, ev) =>
        some ({ w with
                storage := st
                ms_occupied := bitsetClear 16 w.ms_occupied w.current_ms_idx
                ms_level := w.ms_level.set w.current_ms_idx [] }, ev)
  else some (w, [])

/-- Transcription of claim C5's coarse cascade: move the entire occupied
coarse bucket at the coarse cursor (clearing that bit) into the tick-level
bucket at the current tick cursor (setting that bucket's bit). -/
def specMoveCoarse (w : TimeWheel) : TimeWheel :=
  if bitsetIsSet w.s_occupied w.current_s_idx then
    { w with
      s_occupied := bitsetClear 64 w.s_occupied w.current_s_idx
      s_level := w.s_level.set w.current_s_idx []
      ms_occupied := bitsetSet w.ms_occupied w.current_ms_idx
      ms_level := w.ms_level.set w.current_ms_idx
        (bucketGet w.ms_level w.current_ms_idx ++ bucketGet w.s_level w.current_s_idx) }
  else w

/-- Transcription of claim C5's coarsest cascade: move the entire occupied
coarsest bucket at the coarsest cursor (clearing that bit) into the coarse
bucket at the current coarse cursor (setting that bucket's bit). -/
def specMoveCoarsest (w : TimeWheel) : TimeWheel :=
  if bitsetIsSet w.h_occupied w.current_h_idx then
    { w with
      h_occupied := bitsetClear 32 w.h_occupied w.current_h_idx
      h_level := w.h_level.set w.current_h_idx []
      s_occupied := bitsetSet w.s_occupied w.current_s_idx
      s_level := w.s_level.set w.current_s_idx
        (bucketGet w.s_level w.current_s_idx ++ bucketGet w.h_level w.current_h_idx) }
  else w

/-- Transcription of the whole single tick step as described by claim C5:
drain the current tick bucket, advance the tick cursor by 1 mod 10, on
wrap move the coarse bucket down and advance the coarse cursor by 1 mod
60, and on its wrap move the coarsest bucket down and advance the coarsest
cursor by 1 mod 24. -/
def specTickStep (w : TimeWheel) : Option (TimeWheel × List (TimerId × Waker)) :=
  (specDrainCurrent w).map fun p =>
    let w := { p.1 with current_ms_idx := (p.1.current_ms_idx + 1) % 10 }
    let w :=
      if w.current_ms_idx = 0 then
        let w := specMoveCoarse w
        let w := { w with current_s_idx := (w.current_s_idx + 1) % 60 }
        if w.current_s_idx = 0 then
          let w := specMoveCoarsest w
          { w with current_h_idx := (w.current_h_idx + 1) % 24 }
        else w
      else w
    (w, p.2)

/-- Total number of occurrences of id `x` across all buckets of one level. -/
def countIdLevel (l : List Bucket) (x : TimerId) : Nat :=
  (l.map fun b => b.count x).sum

/-- Exactly the bucket at `idx` changed, by appending `id`. -/
def onlyBucketAppended (l l' : List Bucket) (idx : Nat) (id : TimerId) : Prop :=
  bucketGet l' idx = bucketGet l idx ++ [id] ∧
  ∀ j, j ≠ idx → bucketGet l' j = bucketGet l j

/-- The occupancy bit at `idx` is set and every other bit is unchanged. -/
def bitsOnlySet (b b' idx : Nat) : Prop :=
  bitsetIsSet b' idx = true ∧ ∀ j, j ≠ idx → bitsetIsSet b' j = bitsetIsSet b j

/-- Exactly one bucket (at one level) received the new id, that bucket's
occupancy bit was set, and the other two levels are untouched. -/
def placedExactlyOne (w w' : TimeWheel) (id : TimerId) : Prop :=
  (∃ idx, idx < MS_BUCKETS ∧ onlyBucketAppended w.ms_level w'.ms_level idx id ∧
    bitsOnlySet w.ms_occupied w'.ms_occupied idx ∧
    w'.s_level = w.s_level ∧ w'.h_level = w.h_level ∧
    w'.s_occupied = w.s_occupied ∧ w'.h_occupied = w.h_occupied) ∨
  (∃ idx, idx < S_BUCKETS ∧ onlyBucketAppended w.s_level w'.s_level idx id ∧
    bitsOnlySet w.s_occupied w'.s_occupied idx ∧
    w'.ms_level = w.ms_level ∧ w'.h_level = w.h_level ∧
    w'.ms_occupied = w.ms_occupied ∧ w'.h_occupied = w.h_occupied) ∨
  (∃ idx, idx < H_BUCKETS ∧ onlyBucketAppended w.h_level w'.h_level idx id ∧
    bitsOnlySet w.h_occupied w'.h_occupied idx ∧
    w'.ms_level = w.ms_level ∧ w'.s_level = w.s_level ∧
    w'.ms_occupied = w.ms_occupied ∧ w'.s_occupied = w.s_occupied)

/-- Hypotheses for the amended P4 at the tick level: the timer `id` with
stored waker `u` sits (with its occupancy bit set) in the tick-level
bucket `j` offsets ahead of the cursor, is `Waiting`, does not occur in
any earlier tick-level bucket, nor anywhere at the coarse or coarsest
level; cursors are in range. -/
def msTimerInv (w : TimeWheel) (j : Nat) (id : TimerId) (u : Waker) : Prop :=
  j < 10 ∧ w.current_ms_idx < 10 ∧ w.current_s_idx < 60 ∧ w.current_h_idx < 24 ∧
  bitsetIsSet w.ms_occupied ((w.current_ms_idx + j) % 10) = true ∧
  id ∈ bucketGet w.ms_level ((w.current_ms_idx + j) % 10) ∧
  w.storage.get id = some (.waiting u) ∧
  (∀ j', j' < j → id ∉ bucketGet w.ms_level ((w.current_ms_idx + j') % 10)) ∧
  (∀ i, i < 60 → id ∉ bucketGet w.s_level i) ∧
  (∀ i, i < 24 → id ∉ bucketGet w.h_level i)

end TimeWheel

end AsyncTimers


namespace AsyncTimers

/-! Helper lemmas about bitsets. -/

theorem bitsetIsSet_eq_testBit (b i : Nat) : bitsetIsSet b i = b.testBit i := by
  unfold bitsetIsSet
  rw [Nat.shiftLeft_eq, one_mul, Nat.and_two_pow]
  cases h : b.testBit i <;> simp [h, Nat.pow_eq_zero]

theorem bitsetIsSet_set (b i k : Nat) :
    bitsetIsSet (bitsetSet b i) k = (bitsetIsSet b k || decide (i = k)) := by
  simp [bitsetIsSet_eq_testBit, bitsetSet, Nat.testBit_lor, Nat.shiftLeft_eq,
    Nat.testBit_two_pow]

theorem bitsetIsSet_clear (width b i k : Nat) (hk : k < width) :
    bitsetIsSet (bitsetClear width b i) k = (bitsetIsSet b k && !decide (i = k)) := by
  simp [bitsetIsSet_eq_testBit, bitsetClear, Nat.testBit_land, Nat.testBit_xor,
    Nat.testBit_two_pow_sub_one, Nat.shiftLeft_eq, Nat.testBit_two_pow, hk]

/-! Helper lemmas about buckets. -/

theorem bucketGet_set_self (l : List Bucket) (i : Nat) (v : Bucket)
    (h : i < l.length) : bucketGet (l.set i v) i = v := by
  simp [bucketGet, List.getD_eq_getElem?_getD, List.getElem?_set_self h]

theorem bucketGet_set_ne (l : List Bucket) (i j : Nat) (v : Bucket)
    (h : j ≠ i) : bucketGet (l.set i v) j = bucketGet l j := by
  simp [bucketGet, List.getD_eq_getElem?_getD, List.getElem?_set_ne (Ne.symm h)]

theorem bucketGet_set (l : List Bucket) (i j : Nat) (v : Bucket) :
    bucketGet (l.set i v) j =
      if j = i ∧ i < l.length then v else bucketGet l j := by
  rcases eq_or_ne j i with rfl | hne
  · rcases Nat.lt_or_ge j l.length with h | h
    · simp [h, bucketGet_set_self _ _ _ h]
    · rw [List.set_eq_of_length_le h]
      simp [Nat.not_lt_of_ge h]
  · simp [hne, bucketGet_set_ne _ _ _ _ hne]

theorem bucketGet_eq_nil_of_le (l : List Bucket) (i : Nat) (h : l.length ≤ i) :
    bucketGet l i = [] := by
  simp [bucketGet, List.getD_eq_getElem?_getD, List.getElem?_eq_none h]

namespace TimerStorage

/-! Helper lemmas about the slot storage. -/

theorem get_lt_length {s : TimerStorage} {id : TimerId} {t : Timer}
    (h : s.get id = some t) : id < s.inner.length := by
  rcases Nat.lt_or_ge id s.inner.length with hlt | hge
  · exact hlt
  · rw [TimerStorage.get, List.getD_eq_getElem?_getD, List.getElem?_eq_none hge] at h
    simp at h

theorem get_set_self {s : TimerStorage} {id : TimerId} (t : Timer)
    (h : id < s.inner.length) : (s.set id t).get id = some t := by
  simp [TimerStorage.get, TimerStorage.set, List.getD_eq_getElem?_getD,
    List.getElem?_set_self h]

theorem get_set_ne {s : TimerStorage} {id j : TimerId} (t : Timer)
    (h : j ≠ id) : (s.set id t).get j = s.get j := by
  simp [TimerStorage.get, TimerStorage.set, List.getD_eq_getElem?_getD,
    List.getElem?_set_ne (Ne.symm h)]

theorem get_remove_self (s : TimerStorage) (id : TimerId) :
    (s.remove id).get id = none := by
  rcases Nat.lt_or_ge id s.inner.length with h | h
  · simp [TimerStorage.get, TimerStorage.remove, List.getD_eq_getElem?_getD,
      List.getElem?_set_self h]
  · simp [TimerStorage.get, TimerStorage.remove, List.set_eq_of_length_le h,
      List.getD_eq_getElem?_getD, List.getElem?_eq_none h]

theorem get_remove_ne {s : TimerStorage} {id j : TimerId} (h : j ≠ id) :
    (s.remove id).get j = s.get j := by
  simp [TimerStorage.get, TimerStorage.remove, List.getD_eq_getElem?_getD,
    List.getElem?_set_ne (Ne.symm h)]

theorem wake_waiting {s : TimerStorage} {id : TimerId} {u : Waker}
    (h : s.get id = some (.waiting u)) :
    s.wake id = some (s.set id .done, [(id, u)]) := by
  unfold wake
  rw [h]

theorem wake_get_ne {s s' : TimerStorage} {id j : TimerId} {e : List (TimerId × Waker)}
    (hj : j ≠ id) (h : s.wake id = some (s', e)) : s'.get j = s.get j := by
  unfold wake at h
  rcases hg : s.get id with _ | t
  · rw [hg] at h
    exact absurd h (by simp)
  · rw [hg] at h
    cases t with
    | waiting u =>
        simp only [Option.some.injEq, Prod.mk.injEq] at h
        rw [← h.1, get_set_ne _ hj]
    | done => exact absurd h (by simp)
    | cancelled =>
        simp only [Option.some.injEq, Prod.mk.injEq] at h
        rw [← h.1, get_remove_ne hj]

theorem wake_fst_eq {s s' : TimerStorage} {id : TimerId} {e : List (TimerId × Waker)}
    (h : s.wake id = some (s', e)) : ∀ p ∈ e, p.1 = id := by
  unfold wake at h
  rcases hg : s.get id with _ | t
  · rw [hg] at h
    exact absurd h (by simp)
  · rw [hg] at h
    cases t with
    | waiting u =>
        simp only [Option.some.injEq, Prod.mk.injEq] at h
        intro p hp
        rw [← h.2] at hp
        simp at hp
        rw [hp]
    | done => exact absurd h (by simp)
    | cancelled =>
        simp only [Option.some.injEq, Prod.mk.injEq] at h
        intro p hp
        rw [← h.2] at hp
        simp at hp

end TimerStorage

namespace TimeWheel

/-! Helper lemmas about draining a bucket. -/

theorem wakeAll_cons {s : TimerStorage} {a : TimerId} {rest : List TimerId}
    {s' : TimerStorage} {es : List (TimerId × Waker)}
    (h : wakeAll s (a :: rest) = some (s', es)) :
    ∃ s1 e s2 es2, s.wake a = some (s1, e) ∧ wakeAll s1 rest = some (s2, es2) ∧
      s' = s2 ∧ es = e ++ es2 := by
  simp only [wakeAll, Option.bind_eq_some, Option.map_eq_some'] at h
  obtain ⟨⟨s1, e⟩, hw, ⟨⟨s2, es2⟩, hr, heq⟩⟩ := h
  simp only [Prod.mk.injEq] at heq
  exact ⟨s1, e, s2, es2, hw, hr, heq.1.symm, heq.2.symm⟩

theorem wakeAll_get_ne {l : List TimerId} {s s' : TimerStorage}
    {es : List (TimerId × Waker)} {j : TimerId} (hj : j ∉ l)
    (h : wakeAll s l = some (s', es)) : s'.get j = s.get j := by
  induction l generalizing s es with
  | nil =>
      simp only [wakeAll, Option.some.injEq, Prod.mk.injEq] at h
      rw [h.1]
  | cons a rest ih =>
      obtain ⟨s1, e, s2, es2, hw, hr, rfl, rfl⟩ := wakeAll_cons h
      have h1 : s1.get j = s.get j :=
        TimerStorage.wake_get_ne (fun hja => hj (hja ▸ List.mem_cons_self a rest)) hw
      rw [ih (fun hm => hj (List.mem_cons_of_mem a hm)) hr, h1]

theorem wakeAll_events_mem {l : List TimerId} {s s' : TimerStorage}
    {es : List (TimerId × Waker)} (h : wakeAll s l = some (s', es)) :
    ∀ p ∈ es, p.1 ∈ l := by
  induction l generalizing s es with
  | nil =>
      simp only [wakeAll, Option.some.injEq, Prod.mk.injEq] at h
      rw [← h.2]
      simp
  | cons a rest ih =>
      obtain ⟨s1, e, s2, es2, hw, hr, rfl, rfl⟩ := wakeAll_cons h
      intro p hp
      rcases List.mem_append.mp hp with hp | hp
      · rw [TimerStorage.wake_fst_eq hw p hp]
        exact List.mem_cons_self a rest
      · exact List.mem_cons_of_mem a (ih hr p hp)

theorem wakeAll_mem_events {l : List TimerId} {s s' : TimerStorage}
    {es : List (TimerId × Waker)} {id : TimerId} {u : Waker} (hm : id ∈ l)
    (hw : s.get id = some (.waiting u)) (h : wakeAll s l = some (s', es)) :
    (id, u) ∈ es := by
  induction l generalizing s es with
  | nil => simp at hm
  | cons a rest ih =>
      obtain ⟨s1, e, s2, es2, hwa, hr, rfl, rfl⟩ := wakeAll_cons h
      rcases eq_or_ne a id with rfl | hne
      · rw [TimerStorage.wake_waiting hw] at hwa
        simp only [Option.some.injEq, Prod.mk.injEq] at hwa
        rw [← hwa.2]
        simp
      · have hmem : id ∈ rest := by
          rcases List.mem_cons.mp hm with h' | h'
          · exact absurd h'.symm hne
          · exact h'
        have hpres : s1.get id = s.get id :=
          TimerStorage.wake_get_ne (Ne.symm hne) hwa
        exact List.mem_append_right _ (ih hmem (hpres.trans hw) hr)

theorem stepN_succ (n : Nat) (w : TimeWheel) {w' : TimeWheel}
    {es : List (TimerId × Waker)} (h : stepN (n + 1) w = some (w', es)) :
    ∃ w1 e1 w2 e2, w.process_single_tick = some (w1, e1) ∧
      stepN n w1 = some (w2, e2) ∧ w' = w2 ∧ es = e1 ++ e2 := by
  simp only [stepN, Option.bind_eq_some, Option.map_eq_some'] at h
  obtain ⟨⟨w1, e1⟩, hp, ⟨⟨w2, e2⟩, hr, heq⟩⟩ := h
  simp only [Prod.mk.injEq] at heq
  exact ⟨w1, e1, w2, e2, hp, hr, heq.1.symm, heq.2.symm⟩

/-! Helper lemmas about the scan loops of `next_deadline`. -/

theorem findFirstHit_none_iff {t : Nat → Bool} {i n : Nat} :
    findFirstHit t i n = none ↔ ∀ k, k < n → t (i + k) = false := by
  induction n generalizing i with
  | zero => simp [findFirstHit]
  | succ n ih =>
      simp only [findFirstHit]
      cases ht : t i with
      | true =>
          simp only [if_true]
          constructor
          · intro h
            exact absurd h (by simp)
          · intro H
            have := H 0 (by omega)
            simp [ht] at this
      | false =>
          simp only [Bool.false_eq_true, if_false]
          rw [ih]
          constructor
          · intro H k hk
            cases k with
            | zero => simpa using ht
            | succ k =>
                have := H k (by omega)
                rw [show i + 1 + k = i + (k + 1) by omega] at this
                exact this
          · intro H k hk
            have := H (k + 1) (by omega)
            rw [show i + (k + 1) = i + 1 + k by omega] at this
            exact this

theorem findFirstHit_eq_some {t : Nat → Bool} {i n r : Nat}
    (h : findFirstHit t i n = some r) :
    t r = true ∧ i ≤ r ∧ r < i + n ∧ ∀ k, i ≤ k → k < r → t k = false := by
  induction n generalizing i with
  | zero => simp [findFirstHit] at h
  | succ n ih =>
      simp only [findFirstHit] at h
      cases ht : t i with
      | true =>
          rw [ht] at h
          simp only [if_true, Option.some.injEq] at h
          subst h
          exact ⟨ht, Nat.le_refl _, by omega, fun k hk1 hk2 => absurd hk1 (by omega)⟩
      | false =>
          rw [ht] at h
          simp only [Bool.false_eq_true, if_false] at h
          obtain ⟨h1, h2, h3, h4⟩ := ih h
          refine ⟨h1, by omega, by omega, fun k hk1 hk2 => ?_⟩
          rcases eq_or_ne k i with rfl | hne
          · exact ht
          · exact h4 k (by omega) hk2

end TimeWheel

end AsyncTimers

namespace AsyncTimers

/-! Helper lemmas about `create` and the success branches of `init_timer`. -/

theorem bitsOnlySet_set (b idx : Nat) : TimeWheel.bitsOnlySet b (bitsetSet b idx) idx := by
  unfold TimeWheel.bitsOnlySet
  constructor
  · simp [bitsetIsSet_set]
  · intro j hj
    simp [TimeWheel.bitsOnlySet, bitsetIsSet_set, Ne.symm hj]

theorem onlyBucketAppended_set (l : List Bucket) (idx : Nat) (id : TimerId)
    (h : idx < l.length) :
    TimeWheel.onlyBucketAppended l (l.set idx (bucketGet l idx ++ [id])) idx id := by
  unfold TimeWheel.onlyBucketAppended
  constructor
  · exact bucketGet_set_self _ _ _ h
  · intro j hj
    exact bucketGet_set_ne _ _ _ _ hj

namespace TimerStorage

theorem create_get_self (s : TimerStorage) (u : Waker)
    (hfree : ∀ f ∈ s.free, f < s.inner.length) :
    (s.create u).1.get (s.create u).2 = some (.waiting u) := by
  rcases hf : s.free with _ | ⟨f, rest⟩
  · simp [TimerStorage.create, hf, TimerStorage.get, List.getD_eq_getElem?_getD,
      List.getElem?_concat_length]
  · have hlt : f < s.inner.length := hfree f (by rw [hf]; exact List.mem_cons_self f rest)
    simp [TimerStorage.create, hf, TimerStorage.get, List.getD_eq_getElem?_getD,
      List.getElem?_set_self hlt]

theorem create_get_ne (s : TimerStorage) (u : Waker) (j : TimerId)
    (h : j ≠ (s.create u).2) : (s.create u).1.get j = s.get j := by
  rcases hf : s.free with _ | ⟨f, rest⟩
  · have hj : j ≠ s.inner.length := by
      intro hcontra
      exact h (by simp [TimerStorage.create, hf, hcontra])
    rcases Nat.lt_or_ge j s.inner.length with hlt | hge
    · simp [TimerStorage.create, hf, TimerStorage.get, List.getD_eq_getElem?_getD,
        List.getElem?_append, hlt]
    · have hgt : s.inner.length < j := Nat.lt_of_le_of_ne hge (Ne.symm hj)
      have h1 : (s.inner ++ [some (Timer.waiting u)])[j]? = none :=
        List.getElem?_eq_none (by simp; omega)
      have h2 : s.inner[j]? = none := List.getElem?_eq_none hge
      simp [TimerStorage.create, hf, TimerStorage.get, List.getD_eq_getElem?_getD, h1, h2]
  · have hj : j ≠ f := by
      intro hcontra
      exact h (by simp [TimerStorage.create, hf, hcontra])
    simp [TimerStorage.create, hf, TimerStorage.get, List.getD_eq_getElem?_getD,
      List.getElem?_set_ne (Ne.symm hj)]

theorem create_fresh (s : TimerStorage) (u : Waker)
    (hfree : ∀ f ∈ s.free, s.get f = none) : s.get (s.create u).2 = none := by
  rcases hf : s.free with _ | ⟨f, rest⟩
  · simp [TimerStorage.create, hf, TimerStorage.get, List.getD_eq_getElem?_getD,
      List.getElem?_eq_none (Nat.le_refl _)]
  · have := hfree f (by rw [hf]; exact List.mem_cons_self f rest)
    simpa [TimerStorage.create, hf] using this

end TimerStorage

namespace TimeWheel

theorem init_timer_ms (w : TimeWheel) (d : Nat) (u : Waker) (hd : d < 100) :
    w.init_timer d u =
      (.ok (w.storage.create u).2,
        { w with
          storage := (w.storage.create u).1
          ms_occupied := bitsetSet w.ms_occupied (w.compute_ms_bucket_from_ms d)
          ms_level := w.ms_level.set (w.compute_ms_bucket_from_ms d)
            (bucketGet w.ms_level (w.compute_ms_bucket_from_ms d)
              ++ [(w.storage.create u).2]) }) := by
  unfold init_timer
  rw [Nat.mod_eq_of_lt (by omega)]
  rw [if_neg (by norm_num [MAX_DURATION_HOURS]; omega)]
  rw [if_pos (by norm_num [MS_BUCKETS, MS_TICK]; omega)]
  rfl

theorem init_timer_s (w : TimeWheel) (d : Nat) (u : Waker) (hd1 : ¬ d < 100)
    (hd2 : d < 60000) :
    w.init_timer d u =
      (.ok (w.storage.create u).2,
        { w with
          storage := (w.storage.create u).1
          s_occupied := bitsetSet w.s_occupied (w.compute_s_bucket_from_ms d)
          s_level := w.s_level.set (w.compute_s_bucket_from_ms d)
            (bucketGet w.s_level (w.compute_s_bucket_from_ms d)
              ++ [(w.storage.create u).2]) }) := by
  unfold init_timer
  rw [Nat.mod_eq_of_lt (by omega)]
  rw [if_neg (by norm_num [MAX_DURATION_HOURS]; omega)]
  rw [if_neg (by norm_num [MS_BUCKETS, MS_TICK]; omega)]
  rw [if_pos (by norm_num [S_BUCKETS]; omega)]
  rfl

theorem init_timer_h (w : TimeWheel) (d : Nat) (u : Waker) (hd1 : ¬ d < 60000)
    (hd2 : d < 86400000) :
    w.init_timer d u =
      (.ok (w.storage.create u).2,
        { w with
          storage := (w.storage.create u).1
          h_occupied := bitsetSet w.h_occupied (w.compute_h_bucket_from_ms d)
          h_level := w.h_level.set (w.compute_h_bucket_from_ms d)
            (bucketGet w.h_level (w.compute_h_bucket_from_ms d)
              ++ [(w.storage.create u).2]) }) := by
  unfold init_timer
  rw [Nat.mod_eq_of_lt (by omega)]
  rw [if_neg (by norm_num [MAX_DURATION_HOURS]; omega)]
  rw [if_neg (by norm_num [MS_BUCKETS, MS_TICK]; omega)]
  rw [if_neg (by norm_num [S_BUCKETS]; omega)]
  rfl

end TimeWheel

end AsyncTimers

namespace AsyncTimers

open TimeWheel

/-- C9: for every timer in the `Waiting` state, `poll(id, waker)` returns
`Pending`; if the stored continuation already refers to the same
continuation as the supplied waker (`will_wake`) the stored one is left
unchanged, otherwise it is replaced by a clone of the supplied waker;
other slots are untouched, and when the timer subsequently fires, exactly
the most recently installed continuation is notified. -/
theorem claim_C9 (s : TimerStorage) (id : TimerId) (u stored : Waker)
    (h : s.get id = some (.waiting stored)) :
    ∃ s', s.poll id u = some (s', .pending) ∧
      s'.get id = some (.waiting (if TimerStorage.willWake stored u then stored else u)) ∧
      (∀ j, j ≠ id → s'.get j = s.get j) ∧
      ∃ s2, s'.wake id =
        some (s2, [(id, if TimerStorage.willWake stored u then stored else u)]) := by
  have hlen := TimerStorage.get_lt_length h
  by_cases hww : TimerStorage.willWake stored u
  · refine ⟨s, ?_, ?_, fun j _ => rfl, ?_⟩
    · simp [TimerStorage.poll, h, hww]
    · rw [if_pos hww]
      exact h
    · rw [if_pos hww]
      exact ⟨_, TimerStorage.wake_waiting h⟩
  · refine ⟨s.set id (.waiting u), ?_, ?_, ?_, ?_⟩
    · simp [TimerStorage.poll, h, hww]
    · rw [if_neg hww]
      exact TimerStorage.get_set_self _ hlen
    · intro j hj
      exact TimerStorage.get_set_ne _ hj
    · rw [if_neg hww]
      exact ⟨_, TimerStorage.wake_waiting (TimerStorage.get_set_self _ hlen)⟩

/-- Witness for C9 at a concrete storage holding one `Waiting` slot with
stored waker 1, polled with the distinct waker 2. -/
theorem claim_C9_witness :
    ∃ s', TimerStorage.poll ⟨[some (.waiting 1)], []⟩ 0 2 = some (s', .pending) ∧
      s'.get 0 = some (.waiting (if TimerStorage.willWake 1 2 then 1 else 2)) ∧
      (∀ j, j ≠ 0 → s'.get j = TimerStorage.get ⟨[some (.waiting 1)], []⟩ j) ∧
      ∃ s2, s'.wake 0 = some (s2, [(0, if TimerStorage.willWake 1 2 then 1 else 2)]) :=
  claim_C9 ⟨[some (.waiting 1)], []⟩ 0 2 1 rfl

/-- C4 counterexample: a duration of `2 ^ 64` milliseconds is at least
24 hours, yet `init_timer` accepts it (the `as u64` cast truncates the
millisecond count to 0) and allocates a storage slot. -/
theorem claim_C4_counterexample :
    MAX_DURATION_HOURS * 3600000 ≤ 2 ^ 64 ∧
    (TimeWheel.new.init_timer (2 ^ 64) 1).1 = .ok 0 ∧
    (TimeWheel.new.init_timer (2 ^ 64) 1).2.storage.inner.length = 1 := by
  refine ⟨by norm_num [MAX_DURATION_HOURS], rfl, rfl⟩

/-- C4 (amended): for every duration of at least 24 hours whose
millisecond count is below `2 ^ 64`, `init_timer` returns
`DurationTooLong` and leaves the wheel (in particular its storage)
unchanged. -/
theorem claim_C4 (w : TimeWheel) (d : Nat) (u : Waker)
    (h1 : MAX_DURATION_HOURS * 3600000 ≤ d) (h2 : d < 2 ^ 64) :
    w.init_timer d u = (.error .durationTooLong, w) := by
  unfold TimeWheel.init_timer
  rw [Nat.mod_eq_of_lt h2]
  simp [h1]

/-- Witness for C4 at exactly 24 hours. -/
theorem claim_C4_witness :
    TimeWheel.new.init_timer 86400000 3 = (.error .durationTooLong, TimeWheel.new) :=
  claim_C4 TimeWheel.new 86400000 3 (by norm_num [MAX_DURATION_HOURS]) (by norm_num)

/-- C8 counterexample: starting from the reachable state in which timer 0
has fired (slot state `Done`), a first `drop(0)` reclaims the slot and an
immediately following second `drop(0)` hits the `unwrap` panic; repeated
drop is not safe from the `Done` state. -/
theorem claim_C8_counterexample :
    ((stepN 1 (TimeWheel.new.init_timer 0 1).2).map fun p => p.1.storage.get 0)
        = some (some .done) ∧
    ((stepN 1 (TimeWheel.new.init_timer 0 1).2).bind fun p => p.1.dropTimer 0) ≠ none ∧
    ((stepN 1 (TimeWheel.new.init_timer 0 1).2).bind fun p =>
        (p.1.dropTimer 0).bind fun w' => w'.dropTimer 0) = none := by
  refine ⟨rfl, by decide, rfl⟩

/-- C8 (amended): repeated `drop(id)` is safe whenever the slot is
`Waiting` or `Cancelled`: the first drop leaves the slot allocated (in
`Cancelled` state) and the second drop is a no-op on the unchanged
storage.  (From `Done`, the first drop reclaims the slot, so a second
drop is a use-after-reclaim fault.) -/
theorem claim_C8 (s : TimerStorage) (id : TimerId)
    (h : (∃ u, s.get id = some (.waiting u)) ∨ s.get id = some .cancelled) :
    ∃ s1, s.dropTimer id = some s1 ∧ s1.dropTimer id = some s1 := by
  rcases h with ⟨u, h⟩ | h
  · have hlen := TimerStorage.get_lt_length h
    refine ⟨s.set id .cancelled, ?_, ?_⟩
    · unfold TimerStorage.dropTimer
      rw [h]
    · unfold TimerStorage.dropTimer
      rw [TimerStorage.get_set_self _ hlen]
  · refine ⟨s, ?_, ?_⟩ <;>
      · unfold TimerStorage.dropTimer
        rw [h]

/-- Witness for C8 on a storage holding one `Waiting` slot. -/
theorem claim_C8_witness :
    ∃ s1, TimerStorage.dropTimer ⟨[some (.waiting 5)], []⟩ 0 = some s1 ∧
      s1.dropTimer 0 = some s1 :=
  claim_C8 ⟨[some (.waiting 5)], []⟩ 0 (Or.inl ⟨5, rfl⟩)

/-- C2 (code bug): after `register(50 ms) → id 0; drop(0); poll(0, _)`,
the tick-level bucket at offset 5 still contains id 0 while `poll` has
reclaimed the `Cancelled` slot (`get 0 = none`), violating I5; the wheel
survives 5 tick steps but the 6th step, which drains that bucket, hits
the `unwrap` panic inside `TimerStorage::wake`. -/
theorem claim_C2 :
    ((((TimeWheel.new.init_timer 50 3).2.dropTimer 0).bind fun w =>
        (w.poll 0 3).map fun p => (bucketGet p.1.ms_level 5, p.1.storage.get 0, p.2))
      = some ([0], none, .ready)) ∧
    ((((TimeWheel.new.init_timer 50 3).2.dropTimer 0).bind fun w =>
        (w.poll 0 3).bind fun p => stepN 5 p.1) ≠ none) ∧
    ((((TimeWheel.new.init_timer 50 3).2.dropTimer 0).bind fun w =>
        (w.poll 0 3).bind fun p => stepN 6 p.1) = none) := by
  refine ⟨rfl, by decide, rfl⟩

/-- C3 counterexample: with a timer in the current tick bucket
(`register(0)`) and another at the coarse level (`register(200 ms)`), both
occupancy bits are set, yet `next_deadline` returns `None` instead of the
coarse-scan value: the tick-level loop returns `None` as soon as it sees
the occupied current bucket. -/
theorem claim_C3_counterexample :
    (((TimeWheel.new.init_timer 0 5).2.init_timer 200 6).2).next_deadline = none ∧
    bitsetIsSet (((TimeWheel.new.init_timer 0 5).2.init_timer 200 6).2).ms_occupied
      (((TimeWheel.new.init_timer 0 5).2.init_timer 200 6).2).current_ms_idx = true ∧
    bitsetIsSet (((TimeWheel.new.init_timer 0 5).2.init_timer 200 6).2).s_occupied
      (((TimeWheel.new.init_timer 0 5).2.init_timer 200 6).2).current_s_idx = true := by
  refine ⟨rfl, rfl, rfl⟩

/-- C3 (amended): `next_deadline` returns `None` iff either the
tick-level occupancy bit at the current cursor (offset 0) is set — an
occupied current bucket ends the scan with `None` regardless of the other
levels — or no occupancy bit is set at any level. -/
theorem claim_C3 (w : TimeWheel) :
    w.next_deadline = none ↔
      (bitsetIsSet w.ms_occupied (w.current_ms_idx % MS_BUCKETS) = true ∨
       ((∀ i, i < MS_BUCKETS →
           bitsetIsSet w.ms_occupied ((w.current_ms_idx + i) % MS_BUCKETS) = false) ∧
        (∀ i, i < S_BUCKETS →
           bitsetIsSet w.s_occupied ((w.current_s_idx + i) % S_BUCKETS) = false) ∧
        (∀ i, i < H_BUCKETS →
           bitsetIsSet w.h_occupied ((w.current_h_idx + i) % H_BUCKETS) = false))) := by
  unfold TimeWheel.next_deadline
  split
  · rename_i i hfound
    obtain ⟨hti, -, hilt, hmin⟩ := findFirstHit_eq_some hfound
    have hti2 : bitsetIsSet w.ms_occupied ((w.current_ms_idx + i) % MS_BUCKETS) = true := hti
    simp only [Nat.zero_add] at hilt
    by_cases hi : i = 0
    · subst hi
      rw [if_pos rfl]
      constructor
      · intro _
        left
        simpa using hti2
      · intro _
        rfl
    · rw [if_neg hi]
      constructor
      · intro hcontra
        exact absurd hcontra (by simp)
      · intro hrhs
        exfalso
        rcases hrhs with hbit | ⟨hall, -, -⟩
        · have h0 : bitsetIsSet w.ms_occupied ((w.current_ms_idx + 0) % MS_BUCKETS) = false :=
            hmin 0 (by omega) (by omega)
          simp only [Nat.add_zero] at h0
          rw [hbit] at h0
          exact Bool.noConfusion h0
        · rw [hall i hilt] at hti2
          exact Bool.noConfusion hti2
  · rename_i hmsnone
    have hmsall : ∀ k, k < MS_BUCKETS →
        bitsetIsSet w.ms_occupied ((w.current_ms_idx + k) % MS_BUCKETS) = false := by
      intro k hk
      have := findFirstHit_none_iff.mp hmsnone k (by omega)
      simpa using this
    have hbit0 : bitsetIsSet w.ms_occupied (w.current_ms_idx % MS_BUCKETS) = false := by
      have := hmsall 0 (by norm_num [MS_BUCKETS])
      simpa using this
    split
    · rename_i i hfound
      obtain ⟨hti, -, hilt, -⟩ := findFirstHit_eq_some hfound
      have hti2 : bitsetIsSet w.s_occupied ((w.current_s_idx + i) % S_BUCKETS) = true := hti
      simp only [Nat.zero_add] at hilt
      constructor
      · intro hcontra
        exact absurd hcontra (by simp)
      · intro hrhs
        exfalso
        rcases hrhs with hbit | ⟨-, halls, -⟩
        · rw [hbit0] at hbit
          exact Bool.noConfusion hbit
        · rw [halls i hilt] at hti2
          exact Bool.noConfusion hti2
    · rename_i hsnone
      have hsall : ∀ k, k < S_BUCKETS →
          bitsetIsSet w.s_occupied ((w.current_s_idx + k) % S_BUCKETS) = false := by
        intro k hk
        have := findFirstHit_none_iff.mp hsnone k (by omega)
        simpa using this
      split
      · rename_i i hfound
        obtain ⟨hti, -, hilt, -⟩ := findFirstHit_eq_some hfound
        have hti2 : bitsetIsSet w.h_occupied ((w.current_h_idx + i) % H_BUCKETS) = true := hti
        simp only [Nat.zero_add] at hilt
        constructor
        · intro hcontra
          exact absurd hcontra (by simp)
        · intro hrhs
          exfalso
          rcases hrhs with hbit | ⟨-, -, hallh⟩
          · rw [hbit0] at hbit
            exact Bool.noConfusion hbit
          · rw [hallh i hilt] at hti2
            exact Bool.noConfusion hti2
      · rename_i hhnone
        have hhall : ∀ k, k < H_BUCKETS →
            bitsetIsSet w.h_occupied ((w.current_h_idx + k) % H_BUCKETS) = false := by
          intro k hk
          have := findFirstHit_none_iff.mp hhnone k (by omega)
          simpa using this
        constructor
        · intro _
          right
          exact ⟨hmsall, hsall, hhall⟩
        · intro _
          rfl

/-- C7 (code bug): after `register(0) → id 0; drop(0); poll(0, _);
register(0)`, the slab reuses slot 0, so the current tick bucket holds
id 0 twice; draining it wakes slot 0 into `Done` (notifying waker 2) and
the second `wake(0)` observes `Done`, executing the `unreachable!()` arm —
`process_single_tick` panics. -/
theorem claim_C7 :
    ((((TimeWheel.new.init_timer 0 1).2.dropTimer 0).bind fun w =>
        (w.poll 0 1).map fun p =>
          ((p.1.init_timer 0 2).1, bucketGet (p.1.init_timer 0 2).2.ms_level 0))
      = some (.ok 0, [0, 0])) ∧
    ((((TimeWheel.new.init_timer 0 1).2.dropTimer 0).bind fun w =>
        (w.poll 0 1).bind fun p =>
          ((p.1.init_timer 0 2).2.storage.wake 0).map fun q => (q.2, q.1.wake 0))
      = some ([(0, 2)], none)) ∧
    ((((TimeWheel.new.init_timer 0 1).2.dropTimer 0).bind fun w =>
        (w.poll 0 1).bind fun p => (p.1.init_timer 0 2).2.process_single_tick) = none) := by
  refine ⟨rfl, rfl, rfl⟩

end AsyncTimers

namespace AsyncTimers

/-- C6: for every duration below 24 h, `init_timer` places the new id by
the three-way dispatch — `d < 100` at the tick level in bucket
`(tick_cursor + min(d/10, 9)) mod 10`, else `d < 60000` at the coarse
level in bucket `(coarse_cursor + min(d/1000, 59)) mod 60`, else at the
coarsest level in bucket `(coarsest_cursor + min(d/3600000, 23)) mod 24` —
appending the id to exactly that bucket, setting exactly that bucket's
occupancy bit, and leaving the other two levels untouched. -/
theorem claim_C6 (w : TimeWheel) (d : Nat) (u : Waker) (hd : d < 86400000)
    (hms : w.ms_level.length = MS_BUCKETS) (hs : w.s_level.length = S_BUCKETS)
    (hh : w.h_level.length = H_BUCKETS) :
    ∃ id, (w.init_timer d u).1 = .ok id ∧
      ((d < 100 →
        TimeWheel.onlyBucketAppended w.ms_level (w.init_timer d u).2.ms_level
          ((w.current_ms_idx + min (d / 10) 9) % 10) id ∧
        TimeWheel.bitsOnlySet w.ms_occupied (w.init_timer d u).2.ms_occupied
          ((w.current_ms_idx + min (d / 10) 9) % 10) ∧
        (w.init_timer d u).2.s_level = w.s_level ∧
        (w.init_timer d u).2.h_level = w.h_level ∧
        (w.init_timer d u).2.s_occupied = w.s_occupied ∧
        (w.init_timer d u).2.h_occupied = w.h_occupied) ∧
      (¬ d < 100 → d < 60000 →
        TimeWheel.onlyBucketAppended w.s_level (w.init_timer d u).2.s_level
          ((w.current_s_idx + min (d / 1000) 59) % 60) id ∧
        TimeWheel.bitsOnlySet w.s_occupied (w.init_timer d u).2.s_occupied
          ((w.current_s_idx + min (d / 1000) 59) % 60) ∧
        (w.init_timer d u).2.ms_level = w.ms_level ∧
        (w.init_timer d u).2.h_level = w.h_level ∧
        (w.init_timer d u).2.ms_occupied = w.ms_occupied ∧
        (w.init_timer d u).2.h_occupied = w.h_occupied) ∧
      (¬ d < 100 → ¬ d < 60000 →
        TimeWheel.onlyBucketAppended w.h_level (w.init_timer d u).2.h_level
          ((w.current_h_idx + min (d / 3600000) 23) % 24) id ∧
        TimeWheel.bitsOnlySet w.h_occupied (w.init_timer d u).2.h_occupied
          ((w.current_h_idx + min (d / 3600000) 23) % 24) ∧
        (w.init_timer d u).2.ms_level = w.ms_level ∧
        (w.init_timer d u).2.s_level = w.s_level ∧
        (w.init_timer d u).2.ms_occupied = w.ms_occupied ∧
        (w.init_timer d u).2.s_occupied = w.s_occupied)) := by
  refine ⟨(w.storage.create u).2, ?_, ?_, ?_, ?_⟩
  · by_cases h1 : d < 100
    · rw [TimeWheel.init_timer_ms w d u h1]
    · by_cases h2 : d < 60000
      · rw [TimeWheel.init_timer_s w d u h1 h2]
      · rw [TimeWheel.init_timer_h w d u h2 hd]
  · intro h1
    rw [TimeWheel.init_timer_ms w d u h1]
    have hidx : (w.current_ms_idx + min (d / 10) 9) % 10 = w.compute_ms_bucket_from_ms d := by
      norm_num [TimeWheel.compute_ms_bucket_from_ms, MS_TICK, MS_BUCKETS]
    have hlt : w.compute_ms_bucket_from_ms d < w.ms_level.length := by
      rw [hms]
      unfold TimeWheel.compute_ms_bucket_from_ms
      exact Nat.mod_lt _ (by norm_num [MS_BUCKETS])
    rw [hidx]
    exact ⟨onlyBucketAppended_set _ _ _ hlt, bitsOnlySet_set _ _, rfl, rfl, rfl, rfl⟩
  · intro h1 h2
    rw [TimeWheel.init_timer_s w d u h1 h2]
    have hidx : (w.current_s_idx + min (d / 1000) 59) % 60 = w.compute_s_bucket_from_ms d := by
      norm_num [TimeWheel.compute_s_bucket_from_ms, S_BUCKETS]
    have hlt : w.compute_s_bucket_from_ms d < w.s_level.length := by
      rw [hs]
      unfold TimeWheel.compute_s_bucket_from_ms
      exact Nat.mod_lt _ (by norm_num [S_BUCKETS])
    rw [hidx]
    exact ⟨onlyBucketAppended_set _ _ _ hlt, bitsOnlySet_set _ _, rfl, rfl, rfl, rfl⟩
  · intro h1 h2
    rw [TimeWheel.init_timer_h w d u h2 hd]
    have hidx : (w.current_h_idx + min (d / 3600000) 23) % 24 = w.compute_h_bucket_from_ms d := by
      norm_num [TimeWheel.compute_h_bucket_from_ms, H_BUCKETS]
    have hlt : w.compute_h_bucket_from_ms d < w.h_level.length := by
      rw [hh]
      unfold TimeWheel.compute_h_bucket_from_ms
      exact Nat.mod_lt _ (by norm_num [H_BUCKETS])
    rw [hidx]
    exact ⟨onlyBucketAppended_set _ _ _ hlt, bitsOnlySet_set _ _, rfl, rfl, rfl, rfl⟩

/-- Witness for C6 at the fresh wheel with a 50 ms registration. -/
theorem claim_C6_witness :
    ∃ id, (TimeWheel.new.init_timer 50 1).1 = .ok id ∧
      ((50 < 100 →
        TimeWheel.onlyBucketAppended TimeWheel.new.ms_level
          (TimeWheel.new.init_timer 50 1).2.ms_level
          ((TimeWheel.new.current_ms_idx + min (50 / 10) 9) % 10) id ∧
        TimeWheel.bitsOnlySet TimeWheel.new.ms_occupied
          (TimeWheel.new.init_timer 50 1).2.ms_occupied
          ((TimeWheel.new.current_ms_idx + min (50 / 10) 9) % 10) ∧
        (TimeWheel.new.init_timer 50 1).2.s_level = TimeWheel.new.s_level ∧
        (TimeWheel.new.init_timer 50 1).2.h_level = TimeWheel.new.h_level ∧
        (TimeWheel.new.init_timer 50 1).2.s_occupied = TimeWheel.new.s_occupied ∧
        (TimeWheel.new.init_timer 50 1).2.h_occupied = TimeWheel.new.h_occupied) ∧
      (¬ 50 < 100 → 50 < 60000 →
        TimeWheel.onlyBucketAppended TimeWheel.new.s_level
          (TimeWheel.new.init_timer 50 1).2.s_level
          ((TimeWheel.new.current_s_idx + min (50 / 1000) 59) % 60) id ∧
        TimeWheel.bitsOnlySet TimeWheel.new.s_occupied
          (TimeWheel.new.init_timer 50 1).2.s_occupied
          ((TimeWheel.new.current_s_idx + min (50 / 1000) 59) % 60) ∧
        (TimeWheel.new.init_timer 50 1).2.ms_level = TimeWheel.new.ms_level ∧
        (TimeWheel.new.init_timer 50 1).2.h_level = TimeWheel.new.h_level ∧
        (TimeWheel.new.init_timer 50 1).2.ms_occupied = TimeWheel.new.ms_occupied ∧
        (TimeWheel.new.init_timer 50 1).2.h_occupied = TimeWheel.new.h_occupied) ∧
      (¬ 50 < 100 → ¬ 50 < 60000 →
        TimeWheel.onlyBucketAppended TimeWheel.new.h_level
          (TimeWheel.new.init_timer 50 1).2.h_level
          ((TimeWheel.new.current_h_idx + min (50 / 3600000) 23) % 24) id ∧
        TimeWheel.bitsOnlySet TimeWheel.new.h_occupied
          (TimeWheel.new.init_timer 50 1).2.h_occupied
          ((TimeWheel.new.current_h_idx + min (50 / 3600000) 23) % 24) ∧
        (TimeWheel.new.init_timer 50 1).2.ms_level = TimeWheel.new.ms_level ∧
        (TimeWheel.new.init_timer 50 1).2.s_level = TimeWheel.new.s_level ∧
        (TimeWheel.new.init_timer 50 1).2.ms_occupied = TimeWheel.new.ms_occupied ∧
        (TimeWheel.new.init_timer 50 1).2.s_occupied = TimeWheel.new.s_occupied)) :=
  claim_C6 TimeWheel.new 50 1 (by norm_num) rfl rfl rfl

/-- C10: on the success path `init_timer` leaves the three cursors and
`last_tick` unchanged, allocates exactly one fresh storage slot (in
`Waiting` state, holding a clone of the waker) leaving every other slot
unchanged, and modifies exactly one bucket — appending the new id — and
sets exactly that bucket's occupancy bit, leaving every other bucket and
bit at every level unchanged. -/
theorem claim_C10 (w : TimeWheel) (d : Nat) (u : Waker) (hd : d < 86400000)
    (hms : w.ms_level.length = MS_BUCKETS) (hs : w.s_level.length = S_BUCKETS)
    (hh : w.h_level.length = H_BUCKETS)
    (hfree : ∀ f ∈ w.storage.free, f < w.storage.inner.length ∧ w.storage.get f = none) :
    ∃ id, (w.init_timer d u).1 = .ok id ∧
      (w.init_timer d u).2.current_ms_idx = w.current_ms_idx ∧
      (w.init_timer d u).2.current_s_idx = w.current_s_idx ∧
      (w.init_timer d u).2.current_h_idx = w.current_h_idx ∧
      (w.init_timer d u).2.last_tick = w.last_tick ∧
      w.storage.get id = none ∧
      (w.init_timer d u).2.storage.get id = some (.waiting u) ∧
      (∀ j, j ≠ id → (w.init_timer d u).2.storage.get j = w.storage.get j) ∧
      TimeWheel.placedExactlyOne w (w.init_timer d u).2 id := by
  have hfree1 : ∀ f ∈ w.storage.free, f < w.storage.inner.length := fun f hf => (hfree f hf).1
  have hfree2 : ∀ f ∈ w.storage.free, w.storage.get f = none := fun f hf => (hfree f hf).2
  refine ⟨(w.storage.create u).2, ?_⟩
  by_cases h1 : d < 100
  · rw [TimeWheel.init_timer_ms w d u h1]
    refine ⟨rfl, rfl, rfl, rfl, rfl, TimerStorage.create_fresh _ _ hfree2,
      TimerStorage.create_get_self _ _ hfree1,
      fun j hj => TimerStorage.create_get_ne _ _ _ hj, ?_⟩
    left
    refine ⟨w.compute_ms_bucket_from_ms d, ?_, ?_, ?_, rfl, rfl, rfl, rfl⟩
    · unfold TimeWheel.compute_ms_bucket_from_ms
      exact Nat.mod_lt _ (by norm_num [MS_BUCKETS])
    · exact onlyBucketAppended_set _ _ _ (by
        rw [hms]
        unfold TimeWheel.compute_ms_bucket_from_ms
        exact Nat.mod_lt _ (by norm_num [MS_BUCKETS]))
    · exact bitsOnlySet_set _ _
  · by_cases h2 : d < 60000
    · rw [TimeWheel.init_timer_s w d u h1 h2]
      refine ⟨rfl, rfl, rfl, rfl, rfl, TimerStorage.create_fresh _ _ hfree2,
        TimerStorage.create_get_self _ _ hfree1,
        fun j hj => TimerStorage.create_get_ne _ _ _ hj, ?_⟩
      right; left
      refine ⟨w.compute_s_bucket_from_ms d, ?_, ?_, ?_, rfl, rfl, rfl, rfl⟩
      · unfold TimeWheel.compute_s_bucket_from_ms
        exact Nat.mod_lt _ (by norm_num [S_BUCKETS])
      · exact onlyBucketAppended_set _ _ _ (by
          rw [hs]
          unfold TimeWheel.compute_s_bucket_from_ms
          exact Nat.mod_lt _ (by norm_num [S_BUCKETS]))
      · exact bitsOnlySet_set _ _
    · rw [TimeWheel.init_timer_h w d u h2 hd]
      refine ⟨rfl, rfl, rfl, rfl, rfl, TimerStorage.create_fresh _ _ hfree2,
        TimerStorage.create_get_self _ _ hfree1,
        fun j hj => TimerStorage.create_get_ne _ _ _ hj, ?_⟩
      right; right
      refine ⟨w.compute_h_bucket_from_ms d, ?_, ?_, ?_, rfl, rfl, rfl, rfl⟩
      · unfold TimeWheel.compute_h_bucket_from_ms
        exact Nat.mod_lt _ (by norm_num [H_BUCKETS])
      · exact onlyBucketAppended_set _ _ _ (by
          rw [hh]
          unfold TimeWheel.compute_h_bucket_from_ms
          exact Nat.mod_lt _ (by norm_num [H_BUCKETS]))
      · exact bitsOnlySet_set _ _

/-- Witness for C10 at the fresh wheel with a 200 ms registration (coarse
level). -/
theorem claim_C10_witness :
    ∃ id, (TimeWheel.new.init_timer 200 2).1 = .ok id ∧
      (TimeWheel.new.init_timer 200 2).2.current_ms_idx = TimeWheel.new.current_ms_idx ∧
      (TimeWheel.new.init_timer 200 2).2.current_s_idx = TimeWheel.new.current_s_idx ∧
      (TimeWheel.new.init_timer 200 2).2.current_h_idx = TimeWheel.new.current_h_idx ∧
      (TimeWheel.new.init_timer 200 2).2.last_tick = TimeWheel.new.last_tick ∧
      TimeWheel.new.storage.get id = none ∧
      (TimeWheel.new.init_timer 200 2).2.storage.get id = some (.waiting 2) ∧
      (∀ j, j ≠ id → (TimeWheel.new.init_timer 200 2).2.storage.get j
          = TimeWheel.new.storage.get j) ∧
      TimeWheel.placedExactlyOne TimeWheel.new (TimeWheel.new.init_timer 200 2).2 id :=
  claim_C10 TimeWheel.new 200 2 (by norm_num) rfl rfl rfl (by simp [TimeWheel.new, TimerStorage.default])

end AsyncTimers

namespace AsyncTimers

/-! Helper lemmas for the single-tick-step claim. -/

theorem sum_set_add (L : List Nat) (i a : Nat) (h : i < L.length) :
    (L.set i a).sum + L.getD i 0 = L.sum + a := by
  induction L generalizing i with
  | nil => simp at h
  | cons b t ih =>
      cases i with
      | zero => simp [List.getD_cons_zero]; omega
      | succ i =>
          simp only [List.set_cons_succ, List.sum_cons, List.getD_cons_succ]
          have := ih i (by simpa using h)
          omega

theorem countIdLevel_set (l : List Bucket) (i : Nat) (v : Bucket) (x : TimerId)
    (h : i < l.length) :
    TimeWheel.countIdLevel (l.set i v) x + (bucketGet l i).count x
      = TimeWheel.countIdLevel l x + v.count x := by
  unfold TimeWheel.countIdLevel
  rw [List.map_set]
  have hmap : (l.map fun b => b.count x).getD i 0 = (bucketGet l i).count x := by
    rw [List.getD_eq_getElem?_getD, List.getElem?_map, bucketGet,
      List.getD_eq_getElem?_getD]
    rcases he : l[i]? with _ | b
    · exfalso
      have := List.getElem?_eq_none_iff.mp he
      omega
    · simp
  rw [← hmap]
  exact sum_set_add _ _ _ (by simpa using h)

theorem cascade_from_seconds_conserves (w : TimeWheel) (x : TimerId)
    (hms : w.ms_level.length = MS_BUCKETS) (hs : w.s_level.length = S_BUCKETS)
    (hcm : w.current_ms_idx < MS_BUCKETS) (hcs : w.current_s_idx < S_BUCKETS) :
    TimeWheel.countIdLevel (TimeWheel.cascade_from_seconds w).ms_level x
      + TimeWheel.countIdLevel (TimeWheel.cascade_from_seconds w).s_level x
      = TimeWheel.countIdLevel w.ms_level x + TimeWheel.countIdLevel w.s_level x := by
  unfold TimeWheel.cascade_from_seconds
  cases hbit : bitsetIsSet w.s_occupied w.current_s_idx with
  | false => simp [hbit]
  | true =>
      simp only [hbit, Bool.not_true, Bool.false_eq_true, if_false]
      have h1 := countIdLevel_set w.ms_level w.current_ms_idx
        (bucketGet w.ms_level w.current_ms_idx ++ bucketGet w.s_level w.current_s_idx) x
        (by omega)
      have h2 := countIdLevel_set w.s_level w.current_s_idx [] x (by omega)
      rw [List.count_append] at h1
      simp only [List.count_nil] at h2
      omega

theorem cascade_from_hours_conserves (w : TimeWheel) (x : TimerId)
    (hs : w.s_level.length = S_BUCKETS) (hh : w.h_level.length = H_BUCKETS)
    (hcs : w.current_s_idx < S_BUCKETS) (hch : w.current_h_idx < H_BUCKETS) :
    TimeWheel.countIdLevel (TimeWheel.cascade_from_hours w).s_level x
      + TimeWheel.countIdLevel (TimeWheel.cascade_from_hours w).h_level x
      = TimeWheel.countIdLevel w.s_level x + TimeWheel.countIdLevel w.h_level x := by
  unfold TimeWheel.cascade_from_hours
  cases hbit : bitsetIsSet w.h_occupied w.current_h_idx with
  | false => simp [hbit]
  | true =>
      simp only [hbit, Bool.not_true, Bool.false_eq_true, if_false]
      have h1 := countIdLevel_set w.s_level w.current_s_idx
        (bucketGet w.s_level w.current_s_idx ++ bucketGet w.h_level w.current_h_idx) x
        (by omega)
      have h2 := countIdLevel_set w.h_level w.current_h_idx [] x (by omega)
      rw [List.count_append] at h1
      simp only [List.count_nil] at h2
      omega

theorem cascade_from_seconds_eq_spec (w : TimeWheel) :
    TimeWheel.cascade_from_seconds w = TimeWheel.specMoveCoarse w := by
  unfold TimeWheel.cascade_from_seconds TimeWheel.specMoveCoarse
  cases hbit : bitsetIsSet w.s_occupied w.current_s_idx <;> simp [hbit]

theorem cascade_from_hours_eq_spec (w : TimeWheel) :
    TimeWheel.cascade_from_hours w = TimeWheel.specMoveCoarsest w := by
  unfold TimeWheel.cascade_from_hours TimeWheel.specMoveCoarsest
  cases hbit : bitsetIsSet w.h_occupied w.current_h_idx <;> simp [hbit]

end AsyncTimers

namespace AsyncTimers

theorem process_single_tick_eq_spec (w : TimeWheel) :
    TimeWheel.process_single_tick w = TimeWheel.specTickStep w := by
  have htail : ∀ x : TimeWheel, TimeWheel.advance_cursors x =
      (let w1 := { x with current_ms_idx := (x.current_ms_idx + 1) % 10 }
       if w1.current_ms_idx = 0 then
         let w2 := TimeWheel.specMoveCoarse w1
         let w3 := { w2 with current_s_idx := (w2.current_s_idx + 1) % 60 }
         if w3.current_s_idx = 0 then
           let w4 := TimeWheel.specMoveCoarsest w3
           { w4 with current_h_idx := (w4.current_h_idx + 1) % 24 }
         else w3
       else w1) := by
    intro x
    unfold TimeWheel.advance_cursors
    simp only [cascade_from_seconds_eq_spec, cascade_from_hours_eq_spec, beq_iff_eq]
    rfl
  unfold TimeWheel.process_single_tick TimeWheel.specTickStep TimeWheel.specDrainCurrent
  cases hbit : bitsetIsSet w.ms_occupied w.current_ms_idx
  · simp [hbit, htail]
  · cases hwa : TimeWheel.wakeAll w.storage (bucketGet w.ms_level w.current_ms_idx)
    · simp [hbit, hwa]
    · simp [hbit, hwa, htail]

end AsyncTimers

namespace AsyncTimers

/-- C5: every single tick step behaves as claimed — it equals the
transcribed description (`specTickStep`: drain the occupied current tick
bucket waking each id and emptying it, advance the tick cursor mod 10, on
wrap move the occupied coarse bucket at the coarse cursor into the
tick-level bucket at the current tick cursor and advance the coarse cursor
mod 60, analogously from the coarsest level on the coarse wrap) — and the
cascade moves lose and duplicate no id: the total multiplicity of every id
across the two levels involved is preserved. -/
theorem claim_C5 :
    (∀ w, TimeWheel.process_single_tick w = TimeWheel.specTickStep w) ∧
    (∀ (w : TimeWheel) (x : TimerId),
      w.ms_level.length = MS_BUCKETS → w.s_level.length = S_BUCKETS →
      w.current_ms_idx < MS_BUCKETS → w.current_s_idx < S_BUCKETS →
      TimeWheel.countIdLevel (TimeWheel.cascade_from_seconds w).ms_level x
        + TimeWheel.countIdLevel (TimeWheel.cascade_from_seconds w).s_level x
        = TimeWheel.countIdLevel w.ms_level x + TimeWheel.countIdLevel w.s_level x) ∧
    (∀ (w : TimeWheel) (x : TimerId),
      w.s_level.length = S_BUCKETS → w.h_level.length = H_BUCKETS →
      w.current_s_idx < S_BUCKETS → w.current_h_idx < H_BUCKETS →
      TimeWheel.countIdLevel (TimeWheel.cascade_from_hours w).s_level x
        + TimeWheel.countIdLevel (TimeWheel.cascade_from_hours w).h_level x
        = TimeWheel.countIdLevel w.s_level x + TimeWheel.countIdLevel w.h_level x) :=
  ⟨process_single_tick_eq_spec,
   fun w x h1 h2 h3 h4 => cascade_from_seconds_conserves w x h1 h2 h3 h4,
   fun w x h1 h2 h3 h4 => cascade_from_hours_conserves w x h1 h2 h3 h4⟩

/-- Witness for C5: the step equation at the wheel holding a 150 ms timer
(which sits at the coarse level, so the coarse cascade is non-trivial),
and both conservation equations at concrete wheels. -/
theorem claim_C5_witness :
    (TimeWheel.process_single_tick (TimeWheel.new.init_timer 150 1).2
      = TimeWheel.specTickStep (TimeWheel.new.init_timer 150 1).2) ∧
    (TimeWheel.countIdLevel
        (TimeWheel.cascade_from_seconds (TimeWheel.new.init_timer 150 1).2).ms_level 0
      + TimeWheel.countIdLevel
        (TimeWheel.cascade_from_seconds (TimeWheel.new.init_timer 150 1).2).s_level 0
      = TimeWheel.countIdLevel (TimeWheel.new.init_timer 150 1).2.ms_level 0
        + TimeWheel.countIdLevel (TimeWheel.new.init_timer 150 1).2.s_level 0) ∧
    (TimeWheel.countIdLevel
        (TimeWheel.cascade_from_hours (TimeWheel.new.init_timer 7200000 1).2).s_level 0
      + TimeWheel.countIdLevel
        (TimeWheel.cascade_from_hours (TimeWheel.new.init_timer 7200000 1).2).h_level 0
      = TimeWheel.countIdLevel (TimeWheel.new.init_timer 7200000 1).2.s_level 0
        + TimeWheel.countIdLevel (TimeWheel.new.init_timer 7200000 1).2.h_level 0) :=
  ⟨claim_C5.1 (TimeWheel.new.init_timer 150 1).2,
   claim_C5.2.1 (TimeWheel.new.init_timer 150 1).2 0 (by decide) (by decide)
     (by decide) (by decide),
   claim_C5.2.2 (TimeWheel.new.init_timer 7200000 1).2 0 (by decide) (by decide)
     (by decide) (by decide)⟩

end AsyncTimers

namespace AsyncTimers

namespace TimeWheel

/-! Field characterizations of the two cascades, used in the tick-level
deadline-soundness proof. -/

theorem cascade_from_seconds_storage (w : TimeWheel) :
    (cascade_from_seconds w).storage = w.storage := by
  unfold cascade_from_seconds
  split <;> rfl

theorem cascade_from_seconds_current_ms_idx (w : TimeWheel) :
    (cascade_from_seconds w).current_ms_idx = w.current_ms_idx := by
  unfold cascade_from_seconds
  split <;> rfl

theorem cascade_from_seconds_current_s_idx (w : TimeWheel) :
    (cascade_from_seconds w).current_s_idx = w.current_s_idx := by
  unfold cascade_from_seconds
  split <;> rfl

theorem cascade_from_seconds_current_h_idx (w : TimeWheel) :
    (cascade_from_seconds w).current_h_idx = w.current_h_idx := by
  unfold cascade_from_seconds
  split <;> rfl

theorem cascade_from_seconds_h_level (w : TimeWheel) :
    (cascade_from_seconds w).h_level = w.h_level := by
  unfold cascade_from_seconds
  split <;> rfl

theorem cascade_from_seconds_ms_level (w : TimeWheel) :
    (cascade_from_seconds w).ms_level =
      if bitsetIsSet w.s_occupied w.current_s_idx then
        w.ms_level.set w.current_ms_idx
          (bucketGet w.ms_level w.current_ms_idx ++ bucketGet w.s_level w.current_s_idx)
      else w.ms_level := by
  unfold cascade_from_seconds
  cases hbit : bitsetIsSet w.s_occupied w.current_s_idx <;> simp [hbit]

theorem cascade_from_seconds_ms_occupied (w : TimeWheel) :
    (cascade_from_seconds w).ms_occupied =
      if bitsetIsSet w.s_occupied w.current_s_idx then
        bitsetSet w.ms_occupied w.current_ms_idx
      else w.ms_occupied := by
  unfold cascade_from_seconds
  cases hbit : bitsetIsSet w.s_occupied w.current_s_idx <;> simp [hbit]

theorem cascade_from_seconds_s_level (w : TimeWheel) :
    (cascade_from_seconds w).s_level =
      if bitsetIsSet w.s_occupied w.current_s_idx then
        w.s_level.set w.current_s_idx []
      else w.s_level := by
  unfold cascade_from_seconds
  cases hbit : bitsetIsSet w.s_occupied w.current_s_idx <;> simp [hbit]

theorem cascade_from_hours_storage (w : TimeWheel) :
    (cascade_from_hours w).storage = w.storage := by
  unfold cascade_from_hours
  split <;> rfl

theorem cascade_from_hours_current_ms_idx (w : TimeWheel) :
    (cascade_from_hours w).current_ms_idx = w.current_ms_idx := by
  unfold cascade_from_hours
  split <;> rfl

theorem cascade_from_hours_current_s_idx (w : TimeWheel) :
    (cascade_from_hours w).current_s_idx = w.current_s_idx := by
  unfold cascade_from_hours
  split <;> rfl

theorem cascade_from_hours_current_h_idx (w : TimeWheel) :
    (cascade_from_hours w).current_h_idx = w.current_h_idx := by
  unfold cascade_from_hours
  split <;> rfl

theorem cascade_from_hours_ms_level (w : TimeWheel) :
    (cascade_from_hours w).ms_level = w.ms_level := by
  unfold cascade_from_hours
  split <;> rfl

theorem cascade_from_hours_ms_occupied (w : TimeWheel) :
    (cascade_from_hours w).ms_occupied = w.ms_occupied := by
  unfold cascade_from_hours
  split <;> rfl

theorem cascade_from_hours_s_level (w : TimeWheel) :
    (cascade_from_hours w).s_level =
      if bitsetIsSet w.h_occupied w.current_h_idx then
        w.s_level.set w.current_s_idx
          (bucketGet w.s_level w.current_s_idx ++ bucketGet w.h_level w.current_h_idx)
      else w.s_level := by
  unfold cascade_from_hours
  cases hbit : bitsetIsSet w.h_occupied w.current_h_idx <;> simp [hbit]

theorem cascade_from_hours_h_level (w : TimeWheel) :
    (cascade_from_hours w).h_level =
      if bitsetIsSet w.h_occupied w.current_h_idx then
        w.h_level.set w.current_h_idx []
      else w.h_level := by
  unfold cascade_from_hours
  cases hbit : bitsetIsSet w.h_occupied w.current_h_idx <;> simp [hbit]

end TimeWheel

theorem idx_shift (c j n : Nat) : ((c + 1) % n + j) % n = (c + (j + 1)) % n := by
  rw [Nat.mod_add_mod]
  congr 1
  omega

end AsyncTimers

namespace AsyncTimers

theorem cascade_from_seconds_h_occupied (w : TimeWheel) :
    (TimeWheel.cascade_from_seconds w).h_occupied = w.h_occupied := by
  unfold TimeWheel.cascade_from_seconds
  split <;> rfl

theorem msTimerInv_advance {wd : TimeWheel} {j : Nat} {id : TimerId} {u : Waker}
    (hj : j + 1 < 10) (hcm : wd.current_ms_idx < 10) (hcs : wd.current_s_idx < 60)
    (hch : wd.current_h_idx < 24)
    (hbit : bitsetIsSet wd.ms_occupied ((wd.current_ms_idx + (j + 1)) % 10) = true)
    (hmem : id ∈ bucketGet wd.ms_level ((wd.current_ms_idx + (j + 1)) % 10))
    (hslot : wd.storage.get id = some (.waiting u))
    (hlow : ∀ j', 0 < j' → j' < j + 1 →
      id ∉ bucketGet wd.ms_level ((wd.current_ms_idx + j') % 10))
    (hsl : ∀ i, i < 60 → id ∉ bucketGet wd.s_level i)
    (hhl : ∀ i, i < 24 → id ∉ bucketGet wd.h_level i) :
    TimeWheel.msTimerInv (TimeWheel.advance_cursors wd) j id u := by
  unfold TimeWheel.advance_cursors
  simp only [MS_BUCKETS, S_BUCKETS, H_BUCKETS, beq_iff_eq]
  by_cases hwrap : (wd.current_ms_idx + 1) % 10 = 0
  · -- the tick cursor wraps to 0: coarse cascade runs
    have hc9 : wd.current_ms_idx = 9 := by omega
    rw [if_pos hwrap]
    have hidx : (wd.current_ms_idx + (j + 1)) % 10 = j := by omega
    have hbitj : bitsetIsSet wd.ms_occupied j = true := by rw [← hidx]; exact hbit
    have hmemj : id ∈ bucketGet wd.ms_level j := by rw [← hidx]; exact hmem
    have hlowj : ∀ j', j' < j → id ∉ bucketGet wd.ms_level j' := by
      intro j' hj'
      have hidx' : (wd.current_ms_idx + (j' + 1)) % 10 = j' := by omega
      have := hlow (j' + 1) (by omega) (by omega)
      rw [hidx'] at this
      exact this
    -- facts about the state after the coarse cascade (ms fields)
    have hmsO : ∀ k, k < 10 → bitsetIsSet wd.ms_occupied k = true →
        bitsetIsSet (TimeWheel.cascade_from_seconds
          { wd with current_ms_idx := (wd.current_ms_idx + 1) % 10 }).ms_occupied k = true := by
      intro k _ hk
      rw [TimeWheel.cascade_from_seconds_ms_occupied]
      split
      · simp only [bitsetIsSet_set, hwrap]
        simp [hk]
      · exact hk
    have hmsLmem : id ∈ bucketGet (TimeWheel.cascade_from_seconds
        { wd with current_ms_idx := (wd.current_ms_idx + 1) % 10 }).ms_level j := by
      rw [TimeWheel.cascade_from_seconds_ms_level]
      split
      · show id ∈ bucketGet (wd.ms_level.set ((wd.current_ms_idx + 1) % 10) _) j
        rw [hwrap, bucketGet_set]
        split
        · rename_i hcond
          obtain ⟨rfl, -⟩ := hcond
          exact List.mem_append_left _ hmemj
        · exact hmemj
      · exact hmemj
    have hmsLlow : ∀ j', j' < j → id ∉ bucketGet (TimeWheel.cascade_from_seconds
        { wd with current_ms_idx := (wd.current_ms_idx + 1) % 10 }).ms_level j' := by
      intro j' hj'
      rw [TimeWheel.cascade_from_seconds_ms_level]
      split
      · show id ∉ bucketGet (wd.ms_level.set ((wd.current_ms_idx + 1) % 10) _) j'
        rw [hwrap, bucketGet_set]
        split
        · rename_i hcond
          obtain ⟨rfl, -⟩ := hcond
          intro hin
          rcases List.mem_append.mp hin with hin | hin
          · exact hlowj _ hj' hin
          · exact hsl _ hcs hin
        · exact hlowj _ hj'
      · exact hlowj _ hj'
    have hS1 : ∀ i, i < 60 → id ∉ bucketGet (TimeWheel.cascade_from_seconds
        { wd with current_ms_idx := (wd.current_ms_idx + 1) % 10 }).s_level i := by
      intro i hi
      rw [TimeWheel.cascade_from_seconds_s_level]
      split
      · rw [bucketGet_set]
        split
        · simp
        · exact hsl i hi
      · exact hsl i hi
    by_cases hwrap2 : ((TimeWheel.cascade_from_seconds
        { wd with current_ms_idx := (wd.current_ms_idx + 1) % 10 }).current_s_idx + 1) % 60 = 0
    · rw [if_pos hwrap2]
      unfold TimeWheel.msTimerInv
      rw [TimeWheel.cascade_from_hours_current_ms_idx,
        TimeWheel.cascade_from_hours_current_s_idx,
        TimeWheel.cascade_from_hours_current_h_idx,
        TimeWheel.cascade_from_hours_storage,
        TimeWheel.cascade_from_hours_ms_occupied,
        TimeWheel.cascade_from_hours_ms_level,
        TimeWheel.cascade_from_hours_s_level,
        TimeWheel.cascade_from_hours_h_level]
      simp only [TimeWheel.cascade_from_seconds_current_ms_idx,
        TimeWheel.cascade_from_seconds_current_s_idx,
        TimeWheel.cascade_from_seconds_current_h_idx,
        TimeWheel.cascade_from_seconds_storage,
        TimeWheel.cascade_from_seconds_h_level,
        cascade_from_seconds_h_occupied]
      refine ⟨by omega, by omega, by omega, by omega, ?_, ?_, hslot, ?_, ?_, ?_⟩
      · have hidx2 : ((wd.current_ms_idx + 1) % 10 + j) % 10 = j := by omega
        rw [hidx2]
        exact hmsO j (by omega) hbitj
      · have hidx2 : ((wd.current_ms_idx + 1) % 10 + j) % 10 = j := by omega
        rw [hidx2]
        exact hmsLmem
      · intro j' hj'
        have hidx2 : ((wd.current_ms_idx + 1) % 10 + j') % 10 = j' := by omega
        rw [hidx2]
        exact hmsLlow j' hj'
      · intro i hi
        split
        · rw [bucketGet_set]
          split
          · rename_i hcond
            intro hin
            rcases List.mem_append.mp hin with hin | hin
            · exact hS1 _ (by omega) hin
            · exact hhl _ hch hin
          · exact hS1 i hi
        · exact hS1 i hi
      · intro i hi
        split
        · rw [bucketGet_set]
          split
          · simp
          · exact hhl i hi
        · exact hhl i hi
    · rw [if_neg hwrap2]
      unfold TimeWheel.msTimerInv
      simp only [TimeWheel.cascade_from_seconds_current_ms_idx,
        TimeWheel.cascade_from_seconds_current_s_idx,
        TimeWheel.cascade_from_seconds_current_h_idx,
        TimeWheel.cascade_from_seconds_storage,
        TimeWheel.cascade_from_seconds_h_level]
      refine ⟨by omega, by omega, by omega, by omega, ?_, ?_, hslot, ?_, ?_, hhl⟩
      · have hidx2 : ((wd.current_ms_idx + 1) % 10 + j) % 10 = j := by omega
        rw [hidx2]
        exact hmsO j (by omega) hbitj
      · have hidx2 : ((wd.current_ms_idx + 1) % 10 + j) % 10 = j := by omega
        rw [hidx2]
        exact hmsLmem
      · intro j' hj'
        have hidx2 : ((wd.current_ms_idx + 1) % 10 + j') % 10 = j' := by omega
        rw [hidx2]
        exact hmsLlow j' hj'
      · exact hS1
  · -- no wrap: only the tick cursor advances
    rw [if_neg hwrap]
    unfold TimeWheel.msTimerInv
    refine ⟨by omega, ?_, hcs, hch, ?_, ?_, hslot, ?_, hsl, hhl⟩
    · show (wd.current_ms_idx + 1) % 10 < 10
      omega
    · show bitsetIsSet wd.ms_occupied (((wd.current_ms_idx + 1) % 10 + j) % 10) = true
      rw [idx_shift]
      exact hbit
    · show id ∈ bucketGet wd.ms_level (((wd.current_ms_idx + 1) % 10 + j) % 10)
      rw [idx_shift]
      exact hmem
    · intro j' hj'
      show id ∉ bucketGet wd.ms_level (((wd.current_ms_idx + 1) % 10 + j') % 10)
      rw [idx_shift]
      exact hlow (j' + 1) (by omega) (by omega)

end AsyncTimers

namespace AsyncTimers

theorem msTimerInv_step {w : TimeWheel} {j : Nat} {id : TimerId} {u : Waker}
    (hinv : TimeWheel.msTimerInv w (j + 1) id u) {w' : TimeWheel}
    {es : List (TimerId × Waker)}
    (hstep : TimeWheel.process_single_tick w = some (w', es)) :
    TimeWheel.msTimerInv w' j id u ∧ (id, u) ∉ es := by
  obtain ⟨hj, hcm, hcs, hch, hbit, hmem, hslot, hlow, hsl, hhl⟩ := hinv
  have hne : ∀ j', 0 < j' → j' < 10 → (w.current_ms_idx + j') % 10 ≠ w.current_ms_idx := by
    intro j' h1 h2
    omega
  unfold TimeWheel.process_single_tick at hstep
  by_cases hb : bitsetIsSet w.ms_occupied w.current_ms_idx
  · rw [if_pos hb, Option.map_eq_some'] at hstep
    obtain ⟨⟨st, ev⟩, hwa, heq⟩ := hstep
    simp only [Prod.mk.injEq] at heq
    obtain ⟨hw', hes⟩ := heq
    subst hw'
    subst hes
    have hidB : id ∉ bucketGet w.ms_level w.current_ms_idx := by
      have := hlow 0 (by omega)
      simpa [Nat.mod_eq_of_lt hcm] using this
    have hnotin : (id, u) ∉ ev := fun hmm2 => hidB (TimeWheel.wakeAll_events_mem hwa _ hmm2)
    have hpres : st.get id = w.storage.get id := TimeWheel.wakeAll_get_ne hidB hwa
    refine ⟨msTimerInv_advance hj hcm hcs hch ?_ ?_ ?_ ?_ hsl hhl, hnotin⟩
    · show bitsetIsSet (bitsetClear 16 w.ms_occupied w.current_ms_idx)
        ((w.current_ms_idx + (j + 1)) % 10) = true
      rw [bitsetIsSet_clear 16 _ _ _ (by omega)]
      simp [hbit, Ne.symm (hne (j + 1) (by omega) (by omega))]
    · show id ∈ bucketGet (w.ms_level.set w.current_ms_idx [])
        ((w.current_ms_idx + (j + 1)) % 10)
      rw [bucketGet_set_ne _ _ _ _ (hne (j + 1) (by omega) (by omega))]
      exact hmem
    · show st.get id = some (.waiting u)
      rw [hpres]
      exact hslot
    · intro j' h1 h2
      show id ∉ bucketGet (w.ms_level.set w.current_ms_idx [])
        ((w.current_ms_idx + j') % 10)
      rw [bucketGet_set_ne _ _ _ _ (hne j' h1 (by omega))]
      exact hlow j' (by omega)
  · rw [if_neg hb] at hstep
    simp only [Option.some.injEq, Prod.mk.injEq] at hstep
    obtain ⟨hw', hes⟩ := hstep
    subst hw'
    subst hes
    refine ⟨msTimerInv_advance hj hcm hcs hch hbit hmem hslot ?_ hsl hhl, by simp⟩
    intro j' h1 h2
    exact hlow j' (by omega)

theorem msTimerInv_fire {w : TimeWheel} {id : TimerId} {u : Waker}
    (hinv : TimeWheel.msTimerInv w 0 id u) {w' : TimeWheel}
    {es : List (TimerId × Waker)}
    (hstep : TimeWheel.process_single_tick w = some (w', es)) : (id, u) ∈ es := by
  obtain ⟨-, hcm, -, -, hbit, hmem, hslot, -, -, -⟩ := hinv
  have hb : bitsetIsSet w.ms_occupied w.current_ms_idx = true := by
    simpa [Nat.mod_eq_of_lt hcm] using hbit
  have hmemc : id ∈ bucketGet w.ms_level w.current_ms_idx := by
    simpa [Nat.mod_eq_of_lt hcm] using hmem
  unfold TimeWheel.process_single_tick at hstep
  rw [if_pos hb, Option.map_eq_some'] at hstep
  obtain ⟨⟨st, ev⟩, hwa, heq⟩ := hstep
  simp only [Prod.mk.injEq] at heq
  rw [← heq.2]
  exact TimeWheel.wakeAll_mem_events hmemc hslot hwa

theorem msTimerInv_stepN_not_mem {id : TimerId} {u : Waker} :
    ∀ (j : Nat) (w : TimeWheel), TimeWheel.msTimerInv w j id u →
      ∀ w' es, TimeWheel.stepN j w = some (w', es) → (id, u) ∉ es := by
  intro j
  induction j with
  | zero =>
      intro w _ w' es h
      simp only [TimeWheel.stepN, Option.some.injEq, Prod.mk.injEq] at h
      rw [← h.2]
      simp
  | succ n ih =>
      intro w hinv w' es h
      obtain ⟨w1, e1, w2, e2, hp, hr, -, rfl⟩ := TimeWheel.stepN_succ n w h
      obtain ⟨hinv', hni⟩ := msTimerInv_step hinv hp
      intro hmm
      rcases List.mem_append.mp hmm with hmm | hmm
      · exact hni hmm
      · exact ih w1 hinv' w2 e2 hr hmm

theorem msTimerInv_stepN_mem {id : TimerId} {u : Waker} :
    ∀ (j : Nat) (w : TimeWheel), TimeWheel.msTimerInv w j id u →
      ∀ w' es, TimeWheel.stepN (j + 1) w = some (w', es) → (id, u) ∈ es := by
  intro j
  induction j with
  | zero =>
      intro w hinv w' es h
      obtain ⟨w1, e1, w2, e2, hp, hr, -, rfl⟩ := TimeWheel.stepN_succ 0 w h
      exact List.mem_append_left _ (msTimerInv_fire hinv hp)
  | succ n ih =>
      intro w hinv w' es h
      obtain ⟨w1, e1, w2, e2, hp, hr, -, rfl⟩ := TimeWheel.stepN_succ (n + 1) w h
      obtain ⟨hinv', -⟩ := msTimerInv_step hinv hp
      exact List.mem_append_right _ (ih w1 hinv' w2 e2 hr)

end AsyncTimers

namespace AsyncTimers

/-- C1 counterexample: on the fresh wheel, `register(1000 ms)` places the
timer at coarse offset 1 and `next_deadline` reports 1100 ms, yet the
waker is notified within 21 tick steps (210 ms) — and not within 20 —
because the coarse cursor advances on every tick-level wrap (every
100 ms), not every second.  So `next_deadline` exceeds the true remaining
time: 1100 > 210. -/
theorem claim_C1_counterexample :
    ((TimeWheel.new.init_timer 1000 7).1 = .ok 0) ∧
    ((TimeWheel.new.init_timer 1000 7).2.next_deadline = some 1100) ∧
    ((TimeWheel.stepN 21 (TimeWheel.new.init_timer 1000 7).2).map (fun p => p.2)
      = some [(0, 7)]) ∧
    ((TimeWheel.stepN 20 (TimeWheel.new.init_timer 1000 7).2).map (fun p => p.2)
      = some []) ∧
    21 * 10 < 1100 := by
  refine ⟨rfl, rfl, rfl, rfl, by norm_num⟩

/-- C1 (amended): `next_deadline` never exceeds the true remaining time of
a live `Waiting` timer resident at the tick level; for coarse- and
coarsest-level timers it can over-estimate.  Precisely: if the timer `id`
(stored waker `u`) sits in the tick-level bucket `j` offsets ahead of the
cursor with that bucket's bit set, is `Waiting`, occurs in no earlier
tick-level bucket and nowhere at the coarse or coarsest level
(`msTimerInv`), then any value `next_deadline` returns is at most
`j * 10` ms, while the waker is notified only by the `(j+1)`-st tick step:
no panic-free run of `j` steps notifies `(id, u)`, and every panic-free
run of `j + 1` steps does. -/
theorem claim_C1 (w : TimeWheel) (j : Nat) (id : TimerId) (u : Waker)
    (hinv : TimeWheel.msTimerInv w j id u) :
    (∀ v, w.next_deadline = some v → v ≤ j * 10) ∧
    (∀ w' es, TimeWheel.stepN j w = some (w', es) → (id, u) ∉ es) ∧
    (∀ w' es, TimeWheel.stepN (j + 1) w = some (w', es) → (id, u) ∈ es) := by
  refine ⟨?_, fun w' es h => msTimerInv_stepN_not_mem j w hinv w' es h,
    fun w' es h => msTimerInv_stepN_mem j w hinv w' es h⟩
  intro v hv
  obtain ⟨hj, hcm, -, -, hbit, -, -, -, -, -⟩ := hinv
  unfold TimeWheel.next_deadline at hv
  split at hv
  · rename_i i hfound
    obtain ⟨hti, -, -, hmin⟩ := TimeWheel.findFirstHit_eq_some hfound
    by_cases hi : i = 0
    · subst hi
      rw [if_pos rfl] at hv
      exact absurd hv (by simp)
    · rw [if_neg hi] at hv
      simp only [Option.some.injEq] at hv
      subst hv
      have hile : i ≤ j := by
        by_contra hgt
        have := hmin j (by omega) (by omega)
        have h2 : bitsetIsSet w.ms_occupied ((w.current_ms_idx + j) % 10) = false := this
        rw [hbit] at h2
        exact Bool.noConfusion h2
      calc i * MS_TICK = i * 10 := rfl
        _ ≤ j * 10 := by omega
  · rename_i hnone
    exfalso
    have := TimeWheel.findFirstHit_none_iff.mp hnone j (by norm_num [MS_BUCKETS]; omega)
    simp only [Nat.zero_add] at this
    have h2 : bitsetIsSet w.ms_occupied ((w.current_ms_idx + j) % 10) = false := this
    rw [hbit] at h2
    exact Bool.noConfusion h2

/-- Witness for C1 at the fresh wheel holding a 30 ms timer (tick-level
bucket at offset 3): the deadline bound and the exact firing step. -/
theorem claim_C1_witness :
    (∀ v, (TimeWheel.new.init_timer 30 4).2.next_deadline = some v → v ≤ 3 * 10) ∧
    (∀ w' es, TimeWheel.stepN 3 (TimeWheel.new.init_timer 30 4).2 = some (w', es) →
      (0, 4) ∉ es) ∧
    (∀ w' es, TimeWheel.stepN 4 (TimeWheel.new.init_timer 30 4).2 = some (w', es) →
      (0, 4) ∈ es) :=
  claim_C1 (TimeWheel.new.init_timer 30 4).2 3 0 4
    (by unfold TimeWheel.msTimerInv; decide)

end AsyncTimers
